import Mathlib

/-!
Shallow embedding of the sliding-puzzle core from `src/src/main.rs`.

The Rust program stores the board as `grid: [[Option<u8>; 4]; 4]` (row index
first: `grid[y][x]`).  We model it as a total function `Fin 4 → Fin 4 → Option Nat`,
the first argument being the row `y`.  The process-wide random generator is
modelled as an explicit sequence of draws: `new_grid` consumes one pair of
indices per loop iteration, each uniform in `[0,15)` (the Rust call
`rng().random_range(0..15)` guarantees the bound, which we put in the type).
-/

namespace Slider

/-- A cell: `none` is the blank, `some n` the tile numbered `n` (Rust `Option<u8>`). -/
abbrev Cell := Option Nat

/-- The 4×4 board `[[Option<u8>; 4]; 4]`; `g y x` is `grid[y][x]`. -/
abbrev Grid := Fin 4 → Fin 4 → Cell

/-- Row of a flat row-major index. -/
def rowOf (i : Fin 16) : Fin 4 := ⟨i.val / 4, by omega⟩

/-- Column of a flat row-major index. -/
def colOf (i : Fin 16) : Fin 4 := ⟨i.val % 4, by omega⟩

/-- Flat row-major index of a position. -/
def flatIdx (y x : Fin 4) : Fin 16 := ⟨y.val * 4 + x.val, by omega⟩

/-- The cell at flat row-major index `i` (as in `grid.concat()`). -/
def cell (g : Grid) (i : Fin 16) : Cell := g (rowOf i) (colOf i)

/-- The 16 cells read row-major, i.e. the Rust `self.grid.concat()`. -/
def cellsList (g : Grid) : List Cell := (List.finRange 16).map (cell g)

/-- The initial `numbers` array of `App::new_grid`: `array::from_fn(|i| (i + 1) as u8)`. -/
def initNumbers : Fin 15 → Nat := fun i => i.val + 1

/-- One loop iteration of `App::new_grid`: `numbers.swap(a, b)`. -/
def swapNumbers (f : Fin 15 → Nat) (a b : Fin 15) : Fin 15 → Nat :=
  fun i => if i = a then f b else if i = b then f a else f i

/-- The `numbers` array after the 50 swap iterations of `App::new_grid`;
`draws i` is the pair `(a, b)` the generator returned in iteration `i`. -/
def shuffledNumbers (draws : Fin 50 → Fin 15 × Fin 15) : Fin 15 → Nat :=
  (List.finRange 50).foldl (fun f i => swapNumbers f (draws i).1 (draws i).2) initNumbers

/-- `App::new_grid`: build `options` (`None` at index 15, `Some(numbers[n])` below)
and arrange it row-major into the 4×4 grid. -/
def new_grid (draws : Fin 50 → Fin 15 × Fin 15) : Grid :=
  fun y x =>
    if h : y.val * 4 + x.val = 15 then none
    else some (shuffledNumbers draws ⟨y.val * 4 + x.val, by omega⟩)

/-- `App::shuffle`: replace the grid with a freshly shuffled one; the previous
grid is discarded entirely. -/
def shuffle (_ : Grid) (draws : Fin 50 → Fin 15 × Fin 15) : Grid := new_grid draws

/-- `App::is_win`: flatten the grid and check `arr[i] == Some(i as u8 + 1)` for
`i` in `0..15`. -/
def is_win (g : Grid) : Bool :=
  (List.finRange 15).all fun i => cell g (Fin.castLE (by omega) i) == some (i.val + 1)

/-- The order in which `App::find_blank` scans the board: `x` is the outer loop,
`y` the inner one. -/
def scanOrder : List (Fin 4 × Fin 4) :=
  (List.finRange 4).flatMap fun x => (List.finRange 4).map fun y => (x, y)

/-- `App::find_blank`: first `(x, y)` (scanning `x` then `y`) whose cell is `None`;
the `unreachable!()` branch is modelled by `none`. -/
def find_blank (g : Grid) : Option (Int × Int) :=
  (scanOrder.find? fun p => g p.2 p.1 == none).map fun p => ((p.1.val : Int), (p.2.val : Int))

/-- The `as usize` conversion applied to a coordinate that already passed the
`0 ≤ n < 4` bounds test. -/
def toIdx (n : Int) : Fin 4 := ⟨n.toNat % 4, Nat.mod_lt _ (by omega)⟩

/-- Overwrite one cell of the grid. -/
def setCell (g : Grid) (y x : Fin 4) (v : Cell) : Grid :=
  fun y' x' => if y' = y ∧ x' = x then v else g y' x'

/-- `App::make_move`: locate the blank, add the offset, ignore the move when the
target is outside the board, otherwise move the target tile into the blank slot
and blank the target slot.  The outer `none` models the panic hidden inside
`find_blank`; the Rust function itself returns `()`. -/
def make_move (g : Grid) (m : Int × Int) : Option Grid :=
  match find_blank g with
  | none => none
  | some (bx, bY) =>
    if bx + m.1 < 0 ∨ 4 ≤ bx + m.1 ∨ bY + m.2 < 0 ∨ 4 ≤ bY + m.2 then some g
    else
      some (setCell (setCell g (toIdx bY) (toIdx bx) (g (toIdx (bY + m.2)) (toIdx (bx + m.1))))
        (toIdx (bY + m.2)) (toIdx (bx + m.1)) none)

/-- The return value of the Rust `App::make_move` (it returns `()`; `none` again
models the panic inside `find_blank`). -/
def make_move_ret (g : Grid) (m : Int × Int) : Option Unit :=
  (make_move g m).map fun _ => ()

/-- The key events `App::handle_input` reacts to. -/
inductive Key
  | up
  | down
  | left
  | right
  | charQ
  | charR
  | other
deriving DecidableEq

/-- The offset `App::handle_input` passes to `make_move` for each key
(`Up | w ↦ (0, 1)`, `Down | s ↦ (0, -1)`, `Left | a ↦ (1, 0)`, `Right | d ↦ (-1, 0)`);
`none` for keys that trigger no move. -/
def moveOffset : Key → Option (Int × Int)
  | .up => some (0, 1)
  | .down => some (0, -1)
  | .left => some (1, 0)
  | .right => some (-1, 0)
  | _ => none

/-- The four offsets `handle_input` ever passes to `make_move`. -/
def dirOffsets : List (Int × Int) := [(0, 1), (0, -1), (1, 0), (-1, 0)]

/-- One legal game step: some direction key maps grid `g` to grid `g'`. -/
def Step (g g' : Grid) : Prop := ∃ m ∈ dirOffsets, make_move g m = some g'

/-- Reachability by finitely many legal moves. -/
def Reachable : Grid → Grid → Prop := Relation.ReflTransGen Step

/-- The canonical solved grid: `1..15` row-major, blank bottom-right. -/
def solvedGrid : Grid :=
  fun y x => if y.val * 4 + x.val = 15 then none else some (y.val * 4 + x.val + 1)

/-- The cells of the canonical solved grid, row-major. -/
def solvedCells : List Cell := (List.range 15).map (fun i => some (i + 1)) ++ [none]

/-- An invariant-violating test grid: the first 15 row-major cells read `1..15`
but the last cell holds the tile `99` instead of the blank. -/
def junkGrid : Grid :=
  fun y x => if y.val * 4 + x.val = 15 then some 99 else some (y.val * 4 + x.val + 1)

/-- The Grid invariant of the spec: exactly one blank, and each value `1..15`
appears exactly once (counted in the multiset of the 16 cells). -/
def invariant (g : Grid) : Prop :=
  Multiset.count none (cellsList g : Multiset Cell) = 1 ∧
    ∀ n ∈ List.range 15, Multiset.count (some (n + 1)) (cellsList g : Multiset Cell) = 1

instance (g : Grid) : Decidable (invariant g) := by unfold invariant; infer_instance

/-- The value a slot contributes to the parity argument: the tile number, or `16`
for the blank. -/
def val16 (g : Grid) (i : Fin 16) : Nat :=
  match cell g i with
  | none => 16
  | some n => n

/-- The grid realises the permutation `π` of the 16 slots: slot `i` holds value
`π i + 1` (the blank counting as `16`). -/
def Realizes (g : Grid) (π : Equiv.Perm (Fin 16)) : Prop :=
  ∀ i, val16 g i = (π i).val + 1

/-- Sign forced by the blank's position: `1` when `x + y` is even, `-1` otherwise. -/
def blankSign (g : Grid) : ℤˣ :=
  match find_blank g with
  | some (a, b) => if (a + b) % 2 = 0 then 1 else -1
  | none => 1

/-- The 15-puzzle parity invariant: the grid satisfies the Grid invariant, and any
permutation realising it has the sign its blank position dictates. -/
def GoodParity (g : Grid) : Prop :=
  invariant g ∧
    ∃ π : Equiv.Perm (Fin 16), Realizes g π ∧ Equiv.Perm.sign π = blankSign g

/-- A draw sequence whose first pair swaps slots 0 and 1 and whose remaining 49
pairs are the no-op `(0, 0)`: exactly one effective transposition, an odd number. -/
def badDraws : Fin 50 → Fin 15 × Fin 15 :=
  fun i =>
    if i.val = 0 then (⟨0, by omega⟩, ⟨1, by omega⟩) else (⟨0, by omega⟩, ⟨0, by omega⟩)

example : invariant solvedGrid := by decide
example : is_win solvedGrid = true := by decide
example : find_blank solvedGrid = some (3, 3) := by decide

/-! ### Basic index and cell lemmas -/

lemma length_cellsList (g : Grid) : (cellsList g).length = 16 := by
  simp [cellsList]

lemma rowOf_flatIdx (y x : Fin 4) : rowOf (flatIdx y x) = y := by
  have hx := x.isLt
  have hy := y.isLt
  apply Fin.ext
  simp only [rowOf, flatIdx]
  omega

lemma colOf_flatIdx (y x : Fin 4) : colOf (flatIdx y x) = x := by
  have hx := x.isLt
  have hy := y.isLt
  apply Fin.ext
  simp only [colOf, flatIdx]
  omega

lemma cell_flatIdx (g : Grid) (y x : Fin 4) : cell g (flatIdx y x) = g y x := by
  rw [cell, rowOf_flatIdx, colOf_flatIdx]

lemma flatIdx_rowOf_colOf (i : Fin 16) : flatIdx (rowOf i) (colOf i) = i := by
  have := i.isLt
  apply Fin.ext
  simp only [flatIdx, rowOf, colOf]
  omega

lemma flatIdx_inj {y x y' x' : Fin 4} (h : flatIdx y x = flatIdx y' x') :
    y = y' ∧ x = x' := by
  have hx := x.isLt
  have hy := y.isLt
  have hx' := x'.isLt
  have hy' := y'.isLt
  have hv := congrArg Fin.val h
  simp only [flatIdx] at hv
  constructor <;> (apply Fin.ext; omega)

lemma mem_cellsList (g : Grid) (i : Fin 16) : cell g i ∈ cellsList g := by
  simp only [cellsList, List.mem_map]
  exact ⟨i, List.mem_finRange i, rfl⟩

lemma cell_setCell (g : Grid) (y x : Fin 4) (v : Cell) (i : Fin 16) :
    cell (setCell g y x v) i = if i = flatIdx y x then v else cell g i := by
  by_cases h : i = flatIdx y x
  · subst h
    rw [if_pos rfl, cell, rowOf_flatIdx, colOf_flatIdx]
    simp [setCell]
  · rw [if_neg h, cell, cell, setCell]
    have : ¬ (rowOf i = y ∧ colOf i = x) := by
      rintro ⟨h1, h2⟩
      exact h (by rw [← flatIdx_rowOf_colOf i, h1, h2])
    rw [if_neg this]

/-! ### The Grid invariant as a permutation of the solved cells -/

lemma solvedCells_count_none : Multiset.count none (solvedCells : Multiset Cell) = 1 := by
  decide

lemma solvedCells_count_some (n : Nat) :
    Multiset.count (some n) (solvedCells : Multiset Cell) =
      if 1 ≤ n ∧ n ≤ 15 then 1 else 0 := by
  split_ifs with h
  · have hn : (some n : Cell) = some ((n - 1) + 1) := by
      congr 1
      omega
    rw [hn]
    apply Multiset.count_eq_one_of_mem
    · rw [Multiset.coe_nodup]
      decide
    · rw [Multiset.mem_coe, solvedCells, List.mem_append, List.mem_map]
      exact Or.inl ⟨n - 1, by rw [List.mem_range]; omega, rfl⟩
  · apply Multiset.count_eq_zero_of_not_mem
    rw [Multiset.mem_coe, solvedCells, List.mem_append, List.mem_map]
    rintro (⟨i, hi, hs⟩ | hs)
    · rw [List.mem_range] at hi
      have : i + 1 = n := by simpa using hs
      omega
    · simp at hs

lemma invariant_iff_perm (g : Grid) : invariant g ↔ (cellsList g).Perm solvedCells := by
  constructor
  · rintro ⟨h1, h2⟩
    have hle : (solvedCells : Multiset Cell) ≤ (cellsList g : Multiset Cell) := by
      rw [Multiset.le_iff_count]
      intro a
      match a with
      | none =>
          rw [solvedCells_count_none, h1]
      | some n =>
          rw [solvedCells_count_some]
          split_ifs with h
          · have hmem : n - 1 ∈ List.range 15 := by
              rw [List.mem_range]
              omega
            have := h2 (n - 1) hmem
            have hn : n - 1 + 1 = n := by omega
            rw [hn] at this
            omega
          · omega
    have hcard :
        Multiset.card (cellsList g : Multiset Cell) ≤
          Multiset.card (solvedCells : Multiset Cell) := by
      rw [Multiset.coe_card, Multiset.coe_card, length_cellsList]
      decide
    have heq := Multiset.eq_of_le_of_card_le hle hcard
    exact (Multiset.coe_eq_coe.mp heq).symm
  · intro hp
    have heq : (cellsList g : Multiset Cell) = (solvedCells : Multiset Cell) :=
      Multiset.coe_eq_coe.mpr hp
    constructor
    · rw [heq, solvedCells_count_none]
    · intro n hn
      rw [List.mem_range] at hn
      rw [heq, solvedCells_count_some, if_pos ⟨by omega, by omega⟩]

lemma cellsList_nodup {g : Grid} (hg : invariant g) : (cellsList g).Nodup :=
  ((invariant_iff_perm g).mp hg).nodup_iff.mpr (by decide)

lemma cell_mem_solved {g : Grid} (hg : invariant g) (i : Fin 16) :
    cell g i = none ∨ ∃ k, 1 ≤ k ∧ k ≤ 15 ∧ cell g i = some k := by
  have hmem : cell g i ∈ solvedCells :=
    ((invariant_iff_perm g).mp hg).mem_iff.mp (mem_cellsList g i)
  rw [solvedCells, List.mem_append, List.mem_map] at hmem
  rcases hmem with ⟨j, hj, hs⟩ | hs
  · rw [List.mem_range] at hj
    exact Or.inr ⟨j + 1, by omega, by omega, hs.symm⟩
  · simp at hs
    exact Or.inl hs

lemma cell_inj {g : Grid} (hg : invariant g) {i j : Fin 16}
    (hij : cell g i = cell g j) : i = j := by
  have hnd := cellsList_nodup hg
  have hget : ∀ (k : Fin 16) (hk : k.val < (cellsList g).length),
      (cellsList g)[k.val] = cell g k := by
    intro k hk
    simp [cellsList]
  have hi : i.val < (cellsList g).length := by
    rw [length_cellsList]
    exact i.isLt
  have hj : j.val < (cellsList g).length := by
    rw [length_cellsList]
    exact j.isLt
  have : (cellsList g)[i.val] = (cellsList g)[j.val] := by
    rw [hget i hi, hget j hj, hij]
  have := (hnd.getElem_inj_iff).mp this
  exact Fin.ext this

/-! ### find_blank under the invariant -/

lemma mem_scanOrder (p : Fin 4 × Fin 4) : p ∈ scanOrder := by
  revert p
  decide

lemma find_blank_eq {g : Grid} (hg : invariant g) {y x : Fin 4} (hb : g y x = none) :
    find_blank g = some ((x.val : Int), (y.val : Int)) := by
  rcases hq : scanOrder.find? (fun p => g p.2 p.1 == none) with _ | q
  · exfalso
    have := List.find?_eq_none.mp hq (x, y) (mem_scanOrder (x, y))
    simp [hb] at this
  · have hq1 : g q.2 q.1 = none := by
      have := List.find?_some hq
      simpa using this
    have hcell : cell g (flatIdx q.2 q.1) = cell g (flatIdx y x) := by
      rw [cell_flatIdx, cell_flatIdx, hq1, hb]
    obtain ⟨h1, h2⟩ := flatIdx_inj (cell_inj hg hcell)
    rw [find_blank, hq]
    show some (((q.1.val : Int), (q.2.val : Int))) = some ((x.val : Int), (y.val : Int))
    rw [h1, h2]

/-! ### make_move under the invariant -/

lemma invariant_solvedGrid : invariant solvedGrid := by decide

lemma cell_solvedGrid :
    ∀ j : Fin 16, cell solvedGrid j = if j.val = 15 then none else some (j.val + 1) := by
  decide

lemma toIdx_coe (k : Fin 4) : toIdx ((k.val : Int)) = k := by
  apply Fin.ext
  have := k.isLt
  simp only [toIdx]
  omega

lemma make_move_swap {g : Grid} (hg : invariant g) {y x : Fin 4} (hb : g y x = none)
    (m : Int × Int) {ty tx : Fin 4}
    (htx : (x.val : Int) + m.1 = (tx.val : Int)) (hty : (y.val : Int) + m.2 = (ty.val : Int)) :
    make_move g m = some (setCell (setCell g y x (g ty tx)) ty tx none) := by
  simp only [make_move, find_blank_eq hg hb]
  have hcond : ¬((x.val : Int) + m.1 < 0 ∨ 4 ≤ (x.val : Int) + m.1 ∨
      (y.val : Int) + m.2 < 0 ∨ 4 ≤ (y.val : Int) + m.2) := by
    have h1 := tx.isLt
    have h2 := ty.isLt
    omega
  rw [if_neg hcond, htx, hty, toIdx_coe, toIdx_coe, toIdx_coe, toIdx_coe]

lemma make_move_oob {g : Grid} (hg : invariant g) {y x : Fin 4} (hb : g y x = none)
    (m : Int × Int)
    (hoob : (x.val : Int) + m.1 < 0 ∨ 4 ≤ (x.val : Int) + m.1 ∨
      (y.val : Int) + m.2 < 0 ∨ 4 ≤ (y.val : Int) + m.2) :
    make_move g m = some g := by
  simp only [make_move, find_blank_eq hg hb]
  rw [if_pos hoob]

lemma cell_moveResult (g : Grid) (y x ty tx : Fin 4) (i : Fin 16) :
    cell (setCell (setCell g y x (g ty tx)) ty tx none) i =
      if i = flatIdx ty tx then none
      else if i = flatIdx y x then cell g (flatIdx ty tx) else cell g i := by
  rw [cell_setCell, cell_setCell, ← cell_flatIdx g ty tx]

lemma cell_move_swap {g : Grid} {y x ty tx : Fin 4}
    (hb : cell g (flatIdx y x) = none) (i : Fin 16) :
    cell (setCell (setCell g y x (g ty tx)) ty tx none) i =
      cell g (Equiv.swap (flatIdx y x) (flatIdx ty tx) i) := by
  rw [cell_moveResult]
  rcases eq_or_ne i (flatIdx ty tx) with h | h
  · subst h
    rw [if_pos rfl, Equiv.swap_apply_right, hb]
  · rw [if_neg h]
    rcases eq_or_ne i (flatIdx y x) with h2 | h2
    · subst h2
      rw [if_pos rfl, Equiv.swap_apply_left]
    · rw [if_neg h2, Equiv.swap_apply_of_ne_of_ne h2 h]

/-! ### Permuting the slots preserves the invariant -/

lemma cellsList_perm_of_comp {g g' : Grid} (σ : Equiv.Perm (Fin 16))
    (h : ∀ i, cell g' i = cell g (σ i)) : (cellsList g').Perm (cellsList g) := by
  have h1 : cellsList g' = ((List.finRange 16).map σ).map (cell g) := by
    rw [cellsList, List.map_map]
    congr 1
    funext i
    exact h i
  rw [h1]
  have h2 : ((List.finRange 16).map σ).Perm (List.finRange 16) := by
    apply List.perm_of_nodup_nodup_toFinset_eq
    · exact (List.nodup_finRange 16).map σ.injective
    · exact List.nodup_finRange 16
    · apply Finset.ext
      intro a
      simp only [List.mem_toFinset, List.mem_map, List.mem_finRange, true_and]
      exact ⟨fun _ => trivial, fun _ => ⟨σ.symm a, σ.apply_symm_apply a⟩⟩
  exact h2.map (cell g)

lemma invariant_of_comp {g g' : Grid} (σ : Equiv.Perm (Fin 16))
    (h : ∀ i, cell g' i = cell g (σ i)) (hg : invariant g) : invariant g' :=
  (invariant_iff_perm g').mpr
    ((cellsList_perm_of_comp σ h).trans ((invariant_iff_perm g).mp hg))

/-! ### The shuffle is a permutation of the initial numbers -/

lemma swapNumbers_comp (f : Fin 15 → Nat) (a b : Fin 15) :
    swapNumbers f a b = f ∘ (Equiv.swap a b) := by
  funext i
  simp only [swapNumbers, Function.comp_apply, Equiv.swap_apply_def]
  split_ifs <;> rfl

lemma shuffledNumbers_exists_perm (draws : Fin 50 → Fin 15 × Fin 15) :
    ∃ σ : Equiv.Perm (Fin 15), shuffledNumbers draws = initNumbers ∘ σ := by
  rw [shuffledNumbers]
  have key : ∀ (l : List (Fin 50)) (f : Fin 15 → Nat),
      (∃ σ : Equiv.Perm (Fin 15), f = initNumbers ∘ σ) →
      ∃ σ : Equiv.Perm (Fin 15),
        l.foldl (fun f i => swapNumbers f (draws i).1 (draws i).2) f = initNumbers ∘ σ := by
    intro l
    induction l with
    | nil =>
        intro f hf
        simpa using hf
    | cons a t ih =>
        rintro f ⟨σ, hσ⟩
        rw [List.foldl_cons]
        apply ih
        refine ⟨σ * Equiv.swap (draws a).1 (draws a).2, ?_⟩
        show swapNumbers f (draws a).1 (draws a).2 =
          initNumbers ∘ ⇑(σ * Equiv.swap (draws a).1 (draws a).2)
        rw [hσ, swapNumbers_comp]
        funext i
        simp [Equiv.Perm.mul_apply]
  apply key
  refine ⟨1, ?_⟩
  funext i
  simp

lemma cell_new_grid (draws : Fin 50 → Fin 15 × Fin 15) (i : Fin 16) :
    cell (new_grid draws) i =
      if h : i.val = 15 then none else some (shuffledNumbers draws ⟨i.val, by omega⟩) := by
  have hidx : (rowOf i).val * 4 + (colOf i).val = i.val := by
    have := i.isLt
    simp only [rowOf, colOf]
    omega
  rcases eq_or_ne i.val 15 with h | h
  · rw [dif_pos h, cell, new_grid, dif_pos (by omega)]
  · rw [dif_neg h, cell, new_grid, dif_neg (by omega)]
    congr 1
    congr 1
    apply Fin.ext
    exact hidx

lemma invariant_new_grid (draws : Fin 50 → Fin 15 × Fin 15) : invariant (new_grid draws) := by
  obtain ⟨σ, hσ⟩ := shuffledNumbers_exists_perm draws
  have hbody : ∀ (k : Fin 16) (h : k.val < 15), (σ ⟨k.val, h⟩).val < 16 := by
    intro k h
    have := (σ ⟨k.val, h⟩).isLt
    omega
  let p : Fin 16 → Fin 16 := fun i =>
    if h : i.val < 15 then ⟨(σ ⟨i.val, h⟩).val, hbody i h⟩ else i
  have hpi : ∀ (k : Fin 16) (h : k.val < 15), p k = ⟨(σ ⟨k.val, h⟩).val, hbody k h⟩ :=
    fun k h => dif_pos h
  have hpk : ∀ (k : Fin 16), ¬ k.val < 15 → p k = k := fun k h => dif_neg h
  have hvmk : ∀ (a : Nat) (h : a < 16), ((⟨a, h⟩ : Fin 16)).val = a := fun a h => rfl
  have hinj : Function.Injective p := by
    intro i j hij
    by_cases hi : i.val < 15 <;> by_cases hj : j.val < 15
    · rw [hpi i hi, hpi j hj, Fin.mk.injEq] at hij
      have h1 : σ ⟨i.val, hi⟩ = σ ⟨j.val, hj⟩ := Fin.ext hij
      have h2 := σ.injective h1
      rw [Fin.mk.injEq] at h2
      exact Fin.ext h2
    · exfalso
      rw [hpi i hi, hpk j hj] at hij
      have h1 : (σ ⟨i.val, hi⟩).val < 15 := (σ _).isLt
      have h2 : (σ ⟨i.val, hi⟩).val = j.val := by rw [← hij]
      exact hj (by rw [← h2]; omega)
    · exfalso
      rw [hpk i hi, hpi j hj] at hij
      have h1 : (σ ⟨j.val, hj⟩).val < 15 := (σ _).isLt
      have h2 : i.val = (σ ⟨j.val, hj⟩).val := by rw [hij]
      exact hi (by rw [h2]; omega)
    · apply Fin.ext
      have := i.isLt
      have := j.isLt
      omega
  have hbij : Function.Bijective p := Finite.injective_iff_bijective.mp hinj
  have hcomp : ∀ i, cell (new_grid draws) i = cell solvedGrid (Equiv.ofBijective p hbij i) := by
    intro i
    have hπi : Equiv.ofBijective p hbij i = p i := rfl
    rw [cell_new_grid, cell_solvedGrid, hπi]
    by_cases h : i.val < 15
    · have h15 : ¬ i.val = 15 := by omega
      rw [dif_neg h15, hpi i h]
      have hlt : (σ ⟨i.val, h⟩).val < 15 := (σ _).isLt
      rw [if_neg (show ¬((⟨(σ ⟨i.val, h⟩).val, hbody i h⟩ : Fin 16)).val = 15 from by
        rw [hvmk]; omega)]
      show some (shuffledNumbers draws ⟨i.val, by omega⟩) = some ((σ ⟨i.val, h⟩).val + 1)
      rw [hσ]
      rfl
    · have h15 : i.val = 15 := by have := i.isLt; omega
      rw [dif_pos h15, hpk i h, if_pos h15]
  exact invariant_of_comp (Equiv.ofBijective p hbij) hcomp invariant_solvedGrid

/-! ### The move result: invariant preservation and realizing permutations -/

instance (g : Grid) (π : Equiv.Perm (Fin 16)) : Decidable (Realizes g π) := by
  unfold Realizes
  infer_instance

lemma invariant_moveResult {g : Grid} (hg : invariant g) {y x ty tx : Fin 4}
    (hb : g y x = none) :
    invariant (setCell (setCell g y x (g ty tx)) ty tx none) :=
  invariant_of_comp (Equiv.swap (flatIdx y x) (flatIdx ty tx))
    (cell_move_swap (by rw [cell_flatIdx]; exact hb)) hg

lemma moveResult_target_none (g : Grid) (y x ty tx : Fin 4) :
    (setCell (setCell g y x (g ty tx)) ty tx none) ty tx = none := by
  rw [← cell_flatIdx (setCell (setCell g y x (g ty tx)) ty tx none) ty tx,
    cell_moveResult, if_pos rfl]

lemma realizes_move {g : Grid} {π : Equiv.Perm (Fin 16)} (hR : Realizes g π)
    {y x ty tx : Fin 4} (hb : g y x = none) :
    Realizes (setCell (setCell g y x (g ty tx)) ty tx none)
      (π * Equiv.swap (flatIdx y x) (flatIdx ty tx)) := by
  intro i
  have hcell : cell (setCell (setCell g y x (g ty tx)) ty tx none) i =
      cell g (Equiv.swap (flatIdx y x) (flatIdx ty tx) i) :=
    cell_move_swap (by rw [cell_flatIdx]; exact hb) i
  have h1 : val16 (setCell (setCell g y x (g ty tx)) ty tx none) i =
      val16 g (Equiv.swap (flatIdx y x) (flatIdx ty tx) i) := by
    unfold val16
    rw [hcell]
  rw [h1, hR (Equiv.swap (flatIdx y x) (flatIdx ty tx) i), Equiv.Perm.mul_apply]

lemma val16_none {g : Grid} {i : Fin 16} (h : cell g i = none) : val16 g i = 16 := by
  unfold val16
  rw [h]

lemma val16_some {g : Grid} {i : Fin 16} {k : Nat} (h : cell g i = some k) :
    val16 g i = k := by
  unfold val16
  rw [h]

lemma val16_bounds {g : Grid} (hg : invariant g) (i : Fin 16) :
    1 ≤ val16 g i ∧ val16 g i ≤ 16 := by
  rcases cell_mem_solved hg i with h | ⟨k, hk1, hk2, h⟩
  · rw [val16_none h]
    omega
  · rw [val16_some h]
    omega

lemma val16_inj {g : Grid} (hg : invariant g) {i j : Fin 16}
    (hij : val16 g i = val16 g j) : i = j := by
  apply cell_inj hg
  rcases cell_mem_solved hg i with hi | ⟨k, hk1, hk2, hi⟩ <;>
    rcases cell_mem_solved hg j with hj | ⟨k', hk1', hk2', hj⟩
  · rw [hi, hj]
  · rw [val16_none hi, val16_some hj] at hij
    omega
  · rw [val16_some hi, val16_none hj] at hij
    omega
  · rw [val16_some hi, val16_some hj] at hij
    rw [hi, hj, hij]

lemma exists_realizes {g : Grid} (hg : invariant g) : ∃ π, Realizes g π := by
  have hbd : ∀ i, val16 g i - 1 < 16 := by
    intro i
    have := (val16_bounds hg i).2
    omega
  let p : Fin 16 → Fin 16 := fun i => ⟨val16 g i - 1, hbd i⟩
  have hinj : Function.Injective p := by
    intro i j hij
    have h1 := (val16_bounds hg i).1
    have h2 := (val16_bounds hg j).1
    have hv : val16 g i - 1 = val16 g j - 1 := congrArg Fin.val hij
    exact val16_inj hg (by omega)
  refine ⟨Equiv.ofBijective p (Finite.injective_iff_bijective.mp hinj), ?_⟩
  intro i
  have h1 := (val16_bounds hg i).1
  have : (Equiv.ofBijective p (Finite.injective_iff_bijective.mp hinj) i).val =
      val16 g i - 1 := rfl
  omega

lemma realizes_unique {g : Grid} {π π' : Equiv.Perm (Fin 16)}
    (h : Realizes g π) (h' : Realizes g π') : π = π' := by
  apply Equiv.ext
  intro i
  apply Fin.ext
  have h1 := h i
  have h2 := h' i
  omega

/-! ### The parity invariant is preserved by every game step -/

lemma goodParity_solved : GoodParity solvedGrid := by
  refine ⟨invariant_solvedGrid, 1, by decide, ?_⟩
  rw [Equiv.Perm.sign_one]
  decide

lemma goodParity_step {g g' : Grid} (hP : GoodParity g) (hstep : Step g g') :
    GoodParity g' := by
  obtain ⟨hg, π, hR, hs⟩ := hP
  obtain ⟨m, hm, hmk⟩ := hstep
  obtain ⟨i0, hi0⟩ := by
    have hp := (invariant_iff_perm g).mp hg
    have : (none : Cell) ∈ cellsList g := hp.mem_iff.mpr (by decide)
    simpa only [cellsList, List.mem_map, List.mem_finRange, true_and] using this
  set y := rowOf i0
  set x := colOf i0
  have hb : g y x = none := hi0
  by_cases hc : (x.val : Int) + m.1 < 0 ∨ 4 ≤ (x.val : Int) + m.1 ∨
      (y.val : Int) + m.2 < 0 ∨ 4 ≤ (y.val : Int) + m.2
  · have := make_move_oob hg hb m hc
    rw [this] at hmk
    have : g' = g := by
      have := Option.some.inj hmk
      rw [this]
    rw [this]
    exact ⟨hg, π, hR, hs⟩
  · push_neg at hc
    obtain ⟨hc1, hc2, hc3, hc4⟩ := hc
    set tx : Fin 4 := ⟨((x.val : Int) + m.1).toNat, by omega⟩ with htx_def
    set ty : Fin 4 := ⟨((y.val : Int) + m.2).toNat, by omega⟩ with hty_def
    have htx : (x.val : Int) + m.1 = (tx.val : Int) := by
      rw [htx_def]
      simp only []
      omega
    have hty : (y.val : Int) + m.2 = (ty.val : Int) := by
      rw [hty_def]
      simp only []
      omega
    have hmm := make_move_swap hg hb m htx hty
    rw [hmm] at hmk
    have hg'eq : g' = setCell (setCell g y x (g ty tx)) ty tx none :=
      (Option.some.inj hmk).symm
    have hmsum : m.1 + m.2 = 1 ∨ m.1 + m.2 = -1 := by
      simp only [dirOffsets, List.mem_cons, List.not_mem_nil, or_false] at hm
      rcases hm with h | h | h | h <;> (rw [h]; decide)
    have hmne : m.1 ≠ 0 ∨ m.2 ≠ 0 := by
      rcases hmsum with h | h <;> (by_cases h1 : m.1 = 0 <;> [right; left] <;> omega)
    have hne : flatIdx y x ≠ flatIdx ty tx := by
      intro hcontra
      obtain ⟨hy', hx'⟩ := flatIdx_inj hcontra
      have hyv : y.val = ty.val := congrArg Fin.val hy'
      have hxv : x.val = tx.val := congrArg Fin.val hx'
      rcases hmne with h | h
      · apply h
        omega
      · apply h
        omega
    have hinv' : invariant g' := by
      rw [hg'eq]
      exact invariant_moveResult hg hb
    have hR' : Realizes g' (π * Equiv.swap (flatIdx y x) (flatIdx ty tx)) := by
      rw [hg'eq]
      exact realizes_move hR hb
    refine ⟨hinv', π * Equiv.swap (flatIdx y x) (flatIdx ty tx), hR', ?_⟩
    rw [Equiv.Perm.sign_mul, Equiv.Perm.sign_swap hne, hs]
    have hfb : find_blank g = some ((x.val : Int), (y.val : Int)) := find_blank_eq hg hb
    have hfb' : find_blank g' = some ((tx.val : Int), (ty.val : Int)) := by
      apply find_blank_eq hinv'
      rw [hg'eq]
      exact moveResult_target_none g y x ty tx
    rw [blankSign, blankSign, hfb, hfb']
    show (if ((x.val : Int) + (y.val : Int)) % 2 = 0 then (1 : ℤˣ) else -1) * -1 =
      if ((tx.val : Int) + (ty.val : Int)) % 2 = 0 then (1 : ℤˣ) else -1
    have hflip : ((tx.val : Int) + (ty.val : Int)) % 2 = 0 ↔
        ¬ ((x.val : Int) + (y.val : Int)) % 2 = 0 := by
      rcases hmsum with h | h <;> (constructor <;> intro <;> omega)
    by_cases hpar : ((x.val : Int) + (y.val : Int)) % 2 = 0
    · rw [if_pos hpar, if_neg (fun hcon => (hflip.mp hcon) hpar)]
      decide
    · rw [if_neg hpar, if_pos (hflip.mpr hpar)]
      decide

lemma goodParity_reachable {g : Grid} (h : Reachable solvedGrid g) : GoodParity g := by
  induction h with
  | refl => exact goodParity_solved
  | tail _ h2 ih => exact goodParity_step ih h2

lemma realizes_bad : Realizes (new_grid badDraws) (Equiv.swap 0 1) := by decide

lemma not_goodParity_bad : ¬ GoodParity (new_grid badDraws) := by
  rintro ⟨hg, π, hR, hs⟩
  have hπ : π = Equiv.swap 0 1 := realizes_unique hR realizes_bad
  rw [hπ, Equiv.Perm.sign_swap (by decide : (0 : Fin 16) ≠ 1)] at hs
  have hbs : blankSign (new_grid badDraws) = 1 := by decide
  rw [hbs] at hs
  exact absurd hs (by decide)

/-! ### Auxiliary lemmas for the remaining claims -/

lemma grid_ext {g h : Grid} (hc : ∀ i, cell g i = cell h i) : g = h := by
  funext a b
  have := hc (flatIdx a b)
  rwa [cell_flatIdx, cell_flatIdx] at this

lemma exists_blank_pos {g : Grid} (hg : invariant g) : ∃ (y x : Fin 4), g y x = none := by
  have hp := (invariant_iff_perm g).mp hg
  have hmem : (none : Cell) ∈ cellsList g := hp.mem_iff.mpr (by decide)
  simp only [cellsList, List.mem_map, List.mem_finRange, true_and] at hmem
  obtain ⟨i, hi⟩ := hmem
  exact ⟨rowOf i, colOf i, hi⟩

lemma dir_flat_ne {y x ty tx : Fin 4} {m : Int × Int} (hm : m ∈ dirOffsets)
    (htx : (x.val : Int) + m.1 = (tx.val : Int)) (hty : (y.val : Int) + m.2 = (ty.val : Int)) :
    flatIdx y x ≠ flatIdx ty tx := by
  have hmne : m.1 ≠ 0 ∨ m.2 ≠ 0 := by
    simp only [dirOffsets, List.mem_cons, List.not_mem_nil, or_false] at hm
    rcases hm with h | h | h | h <;> (rw [h]; decide)
  intro hcontra
  obtain ⟨hy', hx'⟩ := flatIdx_inj hcontra
  have hyv : y.val = ty.val := congrArg Fin.val hy'
  have hxv : x.val = tx.val := congrArg Fin.val hx'
  rcases hmne with h | h
  · exact h (by omega)
  · exact h (by omega)

lemma make_move_invariant {g : Grid} (hg : invariant g) (m : Int × Int) :
    ∃ g', make_move g m = some g' ∧ invariant g' := by
  obtain ⟨y, x, hb⟩ := exists_blank_pos hg
  by_cases hc : (x.val : Int) + m.1 < 0 ∨ 4 ≤ (x.val : Int) + m.1 ∨
      (y.val : Int) + m.2 < 0 ∨ 4 ≤ (y.val : Int) + m.2
  · exact ⟨g, make_move_oob hg hb m hc, hg⟩
  · push_neg at hc
    obtain ⟨hc1, hc2, hc3, hc4⟩ := hc
    have htx : (x.val : Int) + m.1 = ((⟨((x.val : Int) + m.1).toNat, by omega⟩ : Fin 4).val : Int) := by
      show (x.val : Int) + m.1 = (((x.val : Int) + m.1).toNat : Int)
      omega
    have hty : (y.val : Int) + m.2 = ((⟨((y.val : Int) + m.2).toNat, by omega⟩ : Fin 4).val : Int) := by
      show (y.val : Int) + m.2 = (((y.val : Int) + m.2).toNat : Int)
      omega
    exact ⟨_, make_move_swap hg hb m htx hty, invariant_moveResult hg hb⟩

lemma is_win_iff_cells (g : Grid) :
    is_win g = true ↔ ∀ i : Fin 15, cell g ⟨i.val, by omega⟩ = some (i.val + 1) := by
  rw [is_win, List.all_eq_true]
  constructor
  · intro h i
    have := h i (List.mem_finRange i)
    rwa [beq_iff_eq] at this
  · intro h i _
    rw [beq_iff_eq]
    exact h i

lemma getElem_cellsList (g : Grid) (k : Fin 16) (hk : k.val < (cellsList g).length) :
    (cellsList g)[k.val] = cell g k := by
  simp [cellsList]

lemma cellsList_eq_iff {g : Grid} :
    cellsList g = solvedCells ↔ ∀ i : Fin 16, cell g i = cell solvedGrid i := by
  have hsolved : cellsList solvedGrid = solvedCells := by decide
  constructor
  · intro he i
    have hl1 : i.val < (cellsList g).length := by
      rw [length_cellsList]
      exact i.isLt
    have h1 := getElem_cellsList g i hl1
    have h2 := getElem_cellsList solvedGrid i (by rw [length_cellsList]; exact i.isLt)
    rw [← h1, ← h2]
    exact List.getElem_of_eq (he.trans hsolved.symm) hl1
  · intro h
    rw [← hsolved]
    apply List.ext_getElem
    · rw [length_cellsList, length_cellsList]
    · intro n h1 h2
      rw [getElem_cellsList g ⟨n, by rwa [length_cellsList] at h1⟩ h1,
        getElem_cellsList solvedGrid ⟨n, by rwa [length_cellsList] at h1⟩ h2]
      exact h _

/-! ### The claims -/

/-- C1: the shuffle is NOT always solvable.  For the draw sequence `badDraws`
(one genuine swap of slots 0 and 1, then 49 self-swaps) the produced grid reads
`2, 1, 3, ..., 15, blank` row-major, and no finite sequence of legal moves
reaches it from the canonical solved grid: the code can emit an unsolvable
grid, contradicting its own comment and the spec. -/
theorem new_grid_badDraws_unsolvable :
    cellsList (new_grid badDraws) =
      [some 2, some 1, some 3, some 4, some 5, some 6, some 7, some 8,
        some 9, some 10, some 11, some 12, some 13, some 14, some 15, none] ∧
      ¬ Reachable solvedGrid (new_grid badDraws) :=
  ⟨by decide, fun h => not_goodParity_bad (goodParity_reachable h)⟩

/-- C2: the Grid invariant (exactly one blank; each value `1..15` exactly once)
holds for every grid `new_grid` produces, is preserved by `make_move` for every
offset, and holds again after `shuffle` (restart) from any invariant grid. -/
theorem grid_invariant_maintained :
    (∀ draws, invariant (new_grid draws)) ∧
      (∀ (g : Grid) (m : Int × Int), invariant g →
        ∃ g', make_move g m = some g' ∧ invariant g') ∧
      (∀ (g : Grid) (draws), invariant g → invariant (shuffle g draws)) :=
  ⟨invariant_new_grid, fun _ m hg => make_move_invariant hg m,
    fun _ draws _ => invariant_new_grid draws⟩

/-- C3: for every grid satisfying the Grid invariant, `is_win` returns true iff
reading the grid row-major yields `Numbered 1, ..., Numbered 15, Empty`; it is a
pure function of the grid, so a freshly shuffled grid that happens to be in this
order is reported as solved. -/
theorem is_win_iff_solved_reading {g : Grid} (hg : invariant g) :
    is_win g = true ↔ cellsList g = solvedCells := by
  rw [cellsList_eq_iff]
  constructor
  · intro h i
    have hall : ∀ (n : Nat) (hn : n < 15), cell g ⟨n, by omega⟩ = some (n + 1) :=
      fun n hn => (is_win_iff_cells g).mp h ⟨n, hn⟩
    rw [cell_solvedGrid i]
    by_cases h15 : i.val = 15
    · rw [if_pos h15]
      rcases cell_mem_solved hg i with hnone | ⟨k, hk1, hk2, hsome⟩
      · exact hnone
      · exfalso
        have h2 : cell g (⟨k - 1, by omega⟩ : Fin 16) = some k := by
          have h3 := hall (k - 1) (by omega)
          rwa [show k - 1 + 1 = k from by omega] at h3
        have hik : i = (⟨k - 1, by omega⟩ : Fin 16) := cell_inj hg (by rw [hsome, h2])
        rw [hik] at h15
        have : k - 1 = 15 := h15
        omega
    · rw [if_neg h15]
      have hlt : i.val < 15 := by have := i.isLt; omega
      exact hall i.val hlt
  · intro h
    rw [is_win_iff_cells]
    intro i
    rw [h ⟨i.val, by omega⟩, cell_solvedGrid]
    show (if i.val = 15 then (none : Cell) else some (i.val + 1)) = some (i.val + 1)
    rw [if_neg (by have := i.isLt; omega)]

/-- C3 witness: the solved grid itself satisfies the invariant, and the
equivalence evaluates there. -/
theorem is_win_iff_solved_reading_witness :
    is_win solvedGrid = true ↔ cellsList solvedGrid = solvedCells :=
  is_win_iff_solved_reading (by decide)

/-- C4: under the invariant, an in-bounds directional move swaps exactly the
blank cell and the target cell, leaves the other 14 cells unchanged, and the
exact inverse move restores the original grid. -/
theorem make_move_swaps_and_roundtrip {g : Grid} (hg : invariant g) {y x : Fin 4}
    (hb : g y x = none) {m : Int × Int} (hm : m ∈ dirOffsets) {ty tx : Fin 4}
    (htx : (x.val : Int) + m.1 = (tx.val : Int)) (hty : (y.val : Int) + m.2 = (ty.val : Int)) :
    ∃ g', make_move g m = some g' ∧
      cell g' (flatIdx ty tx) = none ∧
      cell g' (flatIdx y x) = cell g (flatIdx ty tx) ∧
      (∀ i : Fin 16, i ≠ flatIdx y x → i ≠ flatIdx ty tx → cell g' i = cell g i) ∧
      make_move g' (-m.1, -m.2) = some g := by
  have hne := dir_flat_ne hm htx hty
  refine ⟨setCell (setCell g y x (g ty tx)) ty tx none,
    make_move_swap hg hb m htx hty, ?_, ?_, ?_, ?_⟩
  · rw [cell_moveResult, if_pos rfl]
  · rw [cell_moveResult, if_neg hne, if_pos rfl]
  · intro i h1 h2
    rw [cell_moveResult, if_neg h2, if_neg h1]
  · have hinv' : invariant (setCell (setCell g y x (g ty tx)) ty tx none) :=
      invariant_moveResult hg hb
    have hb' := moveResult_target_none g y x ty tx
    have h2 := make_move_swap hinv' hb' (-m.1, -m.2)
      (show (tx.val : Int) + (-m.1, -m.2).1 = (x.val : Int) from by
        show (tx.val : Int) + -m.1 = (x.val : Int)
        omega)
      (show (ty.val : Int) + (-m.1, -m.2).2 = (y.val : Int) from by
        show (ty.val : Int) + -m.2 = (y.val : Int)
        omega)
    rw [h2]
    congr 1
    apply grid_ext
    intro i
    rw [cell_moveResult]
    by_cases hi1 : i = flatIdx y x
    · rw [if_pos hi1, hi1, cell_flatIdx]
      exact hb.symm
    · rw [if_neg hi1]
      by_cases hi2 : i = flatIdx ty tx
      · rw [if_pos hi2, cell_moveResult, if_neg hne, if_pos rfl, hi2]
      · rw [if_neg hi2, cell_moveResult, if_neg hi2, if_neg hi1]

/-- C4 witness: on the solved grid, the Down key's offset `(0, -1)` swaps the
blank at `(3, 3)` with the tile above it, and the inverse offset restores it. -/
theorem make_move_swaps_and_roundtrip_witness :
    ∃ g', make_move solvedGrid (0, -1) = some g' ∧
      cell g' (flatIdx 2 3) = none ∧
      cell g' (flatIdx 3 3) = cell solvedGrid (flatIdx 2 3) ∧
      (∀ i : Fin 16, i ≠ flatIdx 3 3 → i ≠ flatIdx 2 3 → cell g' i = cell solvedGrid i) ∧
      make_move g' (-(0, -1).1, -(0, -1).2) = some solvedGrid :=
  make_move_swaps_and_roundtrip (g := solvedGrid) (y := 3) (x := 3) (m := (0, -1))
    (by decide) (by decide) (by decide)
    (show (((3 : Fin 4)).val : Int) + ((0 : Int), (-1 : Int)).1 = (((3 : Fin 4)).val : Int)
      from by decide)
    (show (((3 : Fin 4)).val : Int) + ((0 : Int), (-1 : Int)).2 = (((2 : Fin 4)).val : Int)
      from by decide)

/-- C5: under the invariant, a move whose target cell falls outside the board
leaves the grid byte-for-byte unchanged (`some g`, so no panic is reached). -/
theorem make_move_out_of_bounds_noop {g : Grid} (hg : invariant g) {y x : Fin 4}
    (hb : g y x = none) (m : Int × Int)
    (hoob : (x.val : Int) + m.1 < 0 ∨ 4 ≤ (x.val : Int) + m.1 ∨
      (y.val : Int) + m.2 < 0 ∨ 4 ≤ (y.val : Int) + m.2) :
    make_move g m = some g :=
  make_move_oob hg hb m hoob

/-- C5 witness: on the solved grid the blank sits at `(3, 3)`; the Up key's
offset `(0, 1)` aims below the board and the grid is unchanged. -/
theorem make_move_out_of_bounds_noop_witness :
    make_move solvedGrid (0, 1) = some solvedGrid :=
  make_move_out_of_bounds_noop (g := solvedGrid) (y := 3) (x := 3)
    (by decide) (by decide) (0, 1) (by decide)

/-- C6 counterexample: no draw sequence whatsoever places the blank anywhere
other than the bottom-right cell: the shuffle swaps only the 15 numbered slots
(indices drawn from `[0,15)`, not `[0,16)`), so the claimed pseudo-random blank
position never occurs. -/
theorem new_grid_blank_never_random :
    ¬ ∃ draws : Fin 50 → Fin 15 × Fin 15, (new_grid draws) 3 3 ≠ none := by
  rintro ⟨d, h⟩
  exact h rfl

/-- C6 amended: the shuffle starts from the 15-element sequence `1..15`,
performs exactly 50 random swaps of two indices drawn from `[0,15)`, and always
places the blank at the bottom-right cell `(3, 3)` — the blank is never moved
by the shuffle. -/
theorem new_grid_blank_bottom_right :
    ∀ (draws : Fin 50 → Fin 15 × Fin 15) (y x : Fin 4),
      (new_grid draws) y x = none ↔ (y.val = 3 ∧ x.val = 3) := by
  intro draws y x
  have hy := y.isLt
  have hx := x.isLt
  simp only [new_grid]
  by_cases h : y.val * 4 + x.val = 15
  · rw [dif_pos h]
    exact iff_of_true rfl ⟨by omega, by omega⟩
  · rw [dif_neg h]
    exact iff_of_false (by simp) (fun hcon => h (by have := hcon.1; have := hcon.2; omega))

/-- C7 counterexample: the Up command passes offset `(0, 1)`, not the claimed
`(0, -1)`; on the solved grid (blank at `(3, 3)`) the Up command is a no-op
because its target lies below the board, whereas the claimed offset would have
slid a tile. -/
theorem up_key_not_toward_smaller_y :
    moveOffset Key.up = some (0, 1) ∧ ((0, 1) : Int × Int) ≠ (0, -1) ∧
      make_move solvedGrid (0, 1) = some solvedGrid :=
  ⟨rfl, by decide, by decide⟩

/-- C7 amended: the key-to-offset mapping of `handle_input` is Up ↦ `(0, 1)`
(the tile below slides up; the blank moves toward larger `y`), Down ↦ `(0, -1)`,
Left ↦ `(1, 0)`, Right ↦ `(-1, 0)`; the other keys trigger no move. -/
theorem key_offsets :
    moveOffset Key.up = some (0, 1) ∧ moveOffset Key.down = some (0, -1) ∧
      moveOffset Key.left = some (1, 0) ∧ moveOffset Key.right = some (-1, 0) ∧
      moveOffset Key.charQ = none ∧ moveOffset Key.charR = none :=
  ⟨rfl, rfl, rfl, rfl, rfl, rfl⟩

/-- C8 counterexample: `make_move` returns `()` (unit), not a boolean: an
ignored out-of-bounds move and a performed legal move return the very same
value, so no success indicator reaches the caller. -/
theorem make_move_ret_no_success_indicator :
    make_move_ret solvedGrid (0, 1) = make_move_ret solvedGrid (0, -1) ∧
      make_move solvedGrid (0, 1) = some solvedGrid ∧
      make_move solvedGrid (0, -1) ≠ some solvedGrid :=
  ⟨by decide, by decide, by decide⟩

/-- C8 amended: under the invariant `make_move` always returns the unit value
(never panicking); success or failure of the move is not reported. -/
theorem make_move_returns_unit {g : Grid} (hg : invariant g) (m : Int × Int) :
    make_move_ret g m = some () := by
  obtain ⟨g', hg', _⟩ := make_move_invariant hg m
  rw [make_move_ret, hg']
  rfl

/-- C8 witness: evaluated on the solved grid with the Up offset. -/
theorem make_move_returns_unit_witness :
    make_move_ret solvedGrid (0, 1) = some () :=
  make_move_returns_unit (g := solvedGrid) (by decide) (0, 1)

/-- C9: under the invariant, `find_blank` returns the coordinates of the unique
empty cell — the `unreachable!()` branch (modelled as `none`) is never taken. -/
theorem find_blank_finds_unique_blank {g : Grid} (hg : invariant g) :
    ∃ (x y : Fin 4), find_blank g = some ((x.val : Int), (y.val : Int)) ∧ g y x = none ∧
      ∀ (x' y' : Fin 4), g y' x' = none → x' = x ∧ y' = y := by
  obtain ⟨y, x, hb⟩ := exists_blank_pos hg
  refine ⟨x, y, find_blank_eq hg hb, hb, ?_⟩
  intro x' y' hb'
  have heq : flatIdx y' x' = flatIdx y x :=
    cell_inj hg (by rw [cell_flatIdx, cell_flatIdx, hb', hb])
  obtain ⟨h1, h2⟩ := flatIdx_inj heq
  exact ⟨h2, h1⟩

/-- C9 witness: evaluated on the solved grid. -/
theorem find_blank_finds_unique_blank_witness :
    ∃ (x y : Fin 4), find_blank solvedGrid = some ((x.val : Int), (y.val : Int)) ∧
      solvedGrid y x = none ∧
      ∀ (x' y' : Fin 4), solvedGrid y' x' = none → x' = x ∧ y' = y :=
  find_blank_finds_unique_blank (by decide)

/-- C10: `is_win` never examines the 16th slot: any grid whose first 15
row-major cells read `1..15` is reported solved, whatever the last cell holds. -/
theorem is_win_ignores_last_cell (g : Grid)
    (h : ∀ i : Fin 15, cell g ⟨i.val, by omega⟩ = some (i.val + 1)) :
    is_win g = true :=
  (is_win_iff_cells g).mpr h

/-- C10 witness: a grid whose 16th cell holds the tile `99` (violating the
invariant) is still reported solved. -/
theorem is_win_ignores_last_cell_witness : is_win junkGrid = true :=
  is_win_ignores_last_cell junkGrid (by decide)

end Slider
